import Mathlib

/-!
Verification of the Orca `ShaderTranspiler` (Source/Renderer/ShaderTranspiler.cpp)
against its natural-language specification.

The C++ code is shallowly embedded:
* strings are `List Char`;
* each concrete `std::regex` used by the code is hand-compiled into a
  deterministic character scanner (all the character classes involved are
  pairwise disjoint, so the ECMAScript greedy/backtracking semantics of these
  particular patterns coincide with maximal-munch scanning);
* scanners that restart after a match take an explicit fuel argument
  (initialised with the length of the input) so that they are structurally
  recursive and evaluate inside the kernel;
* the external toolchain (`std::system`, temp files, `getenv`) is modelled by
  an environment `ToolEnv` supplying exit codes and file contents, and a trace
  `SysTrace` recording the commands executed and files written, threaded
  through the effectful functions.
-/

namespace Orca

/-- Convert a string literal to the character-list representation used here. -/
def s2l (s : String) : List Char := s.toList

/-- ECMAScript `\s` restricted to ASCII (the classes used by the shaders). -/
def wsChar (c : Char) : Bool :=
  c = ' ' || c = '\t' || c = '\n' || c = '\r' || c = '\x0b' || c = '\x0c'

/-- ECMAScript `\w`: `[A-Za-z0-9_]`. -/
def wordChar (c : Char) : Bool :=
  c.isAlpha || c.isDigit || c = '_'

/-- ECMAScript `\d`. -/
def digitChar (c : Char) : Bool := c.isDigit

/-- Match a literal character sequence at the head of the input; on success
return the rest of the input. -/
def matchLit : List Char → List Char → Option (List Char)
  | [], l => some l
  | _ :: _, [] => none
  | p :: ps, c :: cs => if p = c then matchLit ps cs else none

theorem matchLit_length {p l r : List Char} (h : matchLit p l = some r) :
    r.length + p.length = l.length := by
  induction p generalizing l with
  | nil =>
    simp [matchLit] at h
    simp [h]
  | cons x xs ih =>
    cases l with
    | nil => simp [matchLit] at h
    | cons c cs =>
      simp only [matchLit] at h
      split at h
      · have := ih h
        simp at this ⊢
        omega
      · exact absurd h (by simp)

/-- Greedy nonempty run of characters satisfying `f` (`f+` for a class `f`);
returns the run and the rest. -/
def span1 (f : Char → Bool) (l : List Char) : Option (List Char × List Char) :=
  let a := l.takeWhile f
  if a.isEmpty then none else some (a, l.dropWhile f)

theorem takeWhile_nil_dropWhile {f : Char → Bool} {l : List Char}
    (h : l.takeWhile f = []) : l.dropWhile f = l := by
  cases l with
  | nil => rfl
  | cons c cs =>
    by_cases hc : f c
    · rw [List.takeWhile_cons_of_pos hc] at h
      exact absurd h (by simp)
    · exact List.dropWhile_cons_of_neg hc

theorem span1_length {f : Char → Bool} {l a r : List Char}
    (h : span1 f l = some (a, r)) : r.length < l.length := by
  by_cases he : (l.takeWhile f).isEmpty
  · simp [span1, he] at h
  · simp only [span1, he, if_neg, Bool.false_eq_true, not_false_eq_true,
      if_false, Option.some.injEq, Prod.mk.injEq] at h
    obtain ⟨ha, hr⟩ := h
    have hlen : (l.takeWhile f).length + (l.dropWhile f).length = l.length := by
      rw [← List.length_append, List.takeWhile_append_dropWhile]
    have hne : (l.takeWhile f).length ≠ 0 := by
      simp [List.isEmpty_iff] at he
      simp [he]
    rw [← hr]
    omega

/-- Part of the ws run that follows its last newline, or `none` when the run
has no newline.  Used for the trailing `\s*\n` of the `#version` pattern:
greedy backtracking makes the match end exactly at the last newline of the
whitespace run following the digits. -/
def afterLastNl : List Char → Option (List Char)
  | [] => none
  | c :: cs =>
    if c = '\n' then
      match afterLastNl cs with
      | some r => some r
      | none => some cs
    else afterLastNl cs

theorem afterLastNl_length {l r : List Char} (h : afterLastNl l = some r) :
    r.length ≤ l.length := by
  induction l with
  | nil => simp [afterLastNl] at h
  | cons c cs ih =>
    simp only [afterLastNl] at h
    split at h
    · split at h
      · next heq =>
        simp only [Option.some.injEq] at h
        subst h
        have := ih heq
        simp
        omega
      · simp at h
        subst h
        simp
    · have := ih h
      simp
      omega

/-- `std::string::find(pat) != npos`: substring occurrence test. -/
def hasSub (pat : List Char) : List Char → Bool
  | [] => (matchLit pat []).isSome
  | c :: cs => (matchLit pat (c :: cs)).isSome || hasSub pat cs

/-! ## Data model (ShaderTranspiler.h) -/

/-- `enum class ShaderTarget` (the spec calls `GLSL` "SourceFormat" and
`Vulkan` "VulkanSPIRV"). -/
inductive ShaderTarget where
  | GLSL
  | HLSL
  | Vulkan
  | Metal
deriving DecidableEq

/-- `enum class ShaderStage`. -/
inductive ShaderStage where
  | Vertex
  | Fragment
deriving DecidableEq

/-- `struct UniformBinding`. -/
structure UniformBinding where
  name : List Char
  type : List Char
  binding : Int
  set : Int
deriving DecidableEq

/-- `struct VertexAttribute`. -/
structure VertexAttribute where
  name : List Char
  type : List Char
  location : Int
deriving DecidableEq

/-- `struct TranspilationResult`; `binary` is a sequence of 32-bit words. -/
structure TranspilationResult where
  success : Bool
  output : List Char
  binary : List Nat
  errorMessage : List Char
deriving DecidableEq

/-! ## Matchers, one per concrete `std::regex` of the source

Every character class pair that meets in a pattern is disjoint
(`\s`/`\d`/`\w`/literals), so greedy matching never needs to backtrack except
for the final `\s*\n` of the `#version` pattern, handled by `afterLastNl`.
Each matcher tries to match its pattern at the head of the input and returns
the captures plus the unconsumed rest. -/

/-- Match `#version\s+\d+\s*\n` at the head; returns the rest. -/
def matchVersion (l : List Char) : Option (List Char) :=
  match matchLit (s2l "#version") l with
  | none => none
  | some r1 =>
    match span1 wsChar r1 with
    | none => none
    | some (_, r2) =>
      match span1 digitChar r2 with
      | none => none
      | some (_, r3) =>
        match afterLastNl (r3.takeWhile wsChar) with
        | none => none
        | some t => some (t ++ r3.dropWhile wsChar)

theorem matchVersion_length {l r : List Char} (h : matchVersion l = some r) :
    r.length < l.length := by
  unfold matchVersion at h
  split at h
  · exact absurd h (by simp)
  · next r1 h1 =>
    split at h
    · exact absurd h (by simp)
    · next x r2 h2 =>
      split at h
      · exact absurd h (by simp)
      · next y r3 h3 =>
        split at h
        · exact absurd h (by simp)
        · next t h4 =>
          simp only [Option.some.injEq] at h
          subst h
          have e1 := matchLit_length h1
          have e2 := span1_length h2
          have e3 := span1_length h3
          have e4 := afterLastNl_length h4
          have e5 : (r3.takeWhile wsChar).length + (r3.dropWhile wsChar).length
              = r3.length := by
            rw [← List.length_append, List.takeWhile_append_dropWhile]
          simp only [List.length_append, s2l] at *
          omega

/-- Match `uniform\s+(\w+)\s+(\w+);` at the head; returns `(type, name)` and
the rest. -/
def matchUniformDecl (l : List Char) :
    Option ((List Char × List Char) × List Char) :=
  match matchLit (s2l "uniform") l with
  | none => none
  | some r1 =>
    match span1 wsChar r1 with
    | none => none
    | some (_, r2) =>
      match span1 wordChar r2 with
      | none => none
      | some (ty, r3) =>
        match span1 wsChar r3 with
        | none => none
        | some (_, r4) =>
          match span1 wordChar r4 with
          | none => none
          | some (nm, r5) =>
            match matchLit [';'] r5 with
            | none => none
            | some r6 => some ((ty, nm), r6)

/-- Match `uniform\s+` (the whole-match of `regex_replace` with pattern
`uniform\s+.*?`: the lazy `.*?` matches the empty string) at the head. -/
def matchUniformKw (l : List Char) : Option (List Char) :=
  match matchLit (s2l "uniform") l with
  | none => none
  | some r1 =>
    match span1 wsChar r1 with
    | none => none
    | some (_, r2) => some r2

/-- Match `layout\s*\(\s*location\s*=\s*(\d+)\s*\)\s*in\s+(\w+)\s+(\w+);` at
the head; returns `(digits, type, name)` and the rest. -/
def matchAttr (l : List Char) :
    Option ((List Char × List Char × List Char) × List Char) :=
  match matchLit (s2l "layout") l with
  | none => none
  | some r1 =>
    match matchLit ['('] (r1.dropWhile wsChar) with
    | none => none
    | some r2 =>
      match matchLit (s2l "location") (r2.dropWhile wsChar) with
      | none => none
      | some r3 =>
        match matchLit ['='] (r3.dropWhile wsChar) with
        | none => none
        | some r4 =>
          match span1 digitChar (r4.dropWhile wsChar) with
          | none => none
          | some (d, r5) =>
            match matchLit [')'] (r5.dropWhile wsChar) with
            | none => none
            | some r6 =>
              match matchLit (s2l "in") (r6.dropWhile wsChar) with
              | none => none
              | some r7 =>
                match span1 wsChar r7 with
                | none => none
                | some (_, r8) =>
                  match span1 wordChar r8 with
                  | none => none
                  | some (ty, r9) =>
                    match span1 wsChar r9 with
                    | none => none
                    | some (_, r10) =>
                      match span1 wordChar r10 with
                      | none => none
                      | some (nm, r11) =>
                        match matchLit [';'] r11 with
                        | none => none
                        | some r12 => some ((d, ty, nm), r12)

/-- Character class `[\w\d\(\).]` of the matrix-multiplication pattern. -/
def opndChar (c : Char) : Bool :=
  wordChar c || c = '(' || c = ')' || c = '.'

/-- Match `(\w+)\s*\*\s*([\w\d\(\).]+)` at the head; returns the two captures
and the rest. -/
def matchMul (l : List Char) :
    Option ((List Char × List Char) × List Char) :=
  match span1 wordChar l with
  | none => none
  | some (a, r1) =>
    match matchLit ['*'] (r1.dropWhile wsChar) with
    | none => none
    | some r2 =>
      match span1 opndChar (r2.dropWhile wsChar) with
      | none => none
      | some (b, r3) => some ((a, b), r3)

/-- Match `kw\s+(\w+)\s+(\w+);` at the head (the tail of the varying patterns
`\bout\s+(\w+)\s+(\w+);` and `\bin\s+(\w+)\s+(\w+);`); the `\b` on the left is
checked by the scanning driver. -/
def matchVarying (kw : List Char) (l : List Char) :
    Option ((List Char × List Char) × List Char) :=
  match matchLit kw l with
  | none => none
  | some r1 =>
    match span1 wsChar r1 with
    | none => none
    | some (_, r2) =>
      match span1 wordChar r2 with
      | none => none
      | some (ty, r3) =>
        match span1 wsChar r3 with
        | none => none
        | some (_, r4) =>
          match span1 wordChar r4 with
          | none => none
          | some (nm, r5) =>
            match matchLit [';'] r5 with
            | none => none
            | some r6 => some ((ty, nm), r6)

/-! ## Fueled scanning drivers

`std::regex_replace` / the `regex_search` loops scan left to right, replace
each leftmost non-overlapping match and resume after it, or advance one
character.  Every match consumes at least one character, so fuel equal to the
input length is always sufficient; the fuel argument only makes the functions
structurally recursive. -/

/-- `regex_replace(src, regex(R"(#version\s+\d+\s*\n)"), "")`. -/
def stripVersionF : Nat → List Char → List Char
  | 0, l => l
  | _ + 1, [] => []
  | fuel + 1, c :: cs =>
    match matchVersion (c :: cs) with
    | some rest => stripVersionF fuel rest
    | none => c :: stripVersionF fuel cs

def stripVersion (l : List Char) : List Char := stripVersionF l.length l

/-- `regex_replace(source, regex(R"(uniform\s+.*?)"), "")`. -/
def stripUniformKwF : Nat → List Char → List Char
  | 0, l => l
  | _ + 1, [] => []
  | fuel + 1, c :: cs =>
    match matchUniformKw (c :: cs) with
    | some rest => stripUniformKwF fuel rest
    | none => c :: stripUniformKwF fuel cs

def stripUniformKw (l : List Char) : List Char := stripUniformKwF l.length l

/-- The `regex_search` loop of `ExtractUniforms`, accumulating
`UniformBinding` records; `binding` is the size of the accumulator at push
time (`static_cast<int>(uniforms.size())`), `set` is `0`. -/
def extractUniformsF : Nat → List Char → List UniformBinding →
    List UniformBinding
  | 0, _, acc => acc
  | _ + 1, [], acc => acc
  | fuel + 1, c :: cs, acc =>
    match matchUniformDecl (c :: cs) with
    | some ((ty, nm), rest) =>
      extractUniformsF fuel rest
        (acc ++ [⟨nm, ty, Int.ofNat acc.length, 0⟩])
    | none => extractUniformsF fuel cs acc

/-- `ShaderTranspiler::ExtractUniforms`. -/
def ExtractUniforms (l : List Char) : List UniformBinding :=
  extractUniformsF l.length l []

/-- The bare occurrence scan of the uniform pattern: the `(type, name)`
captures of the non-overlapping matches of `uniform\s+(\w+)\s+(\w+);`, in
first-occurrence order. -/
def scanUniformPairsF : Nat → List Char → List (List Char × List Char)
  | 0, _ => []
  | _ + 1, [] => []
  | fuel + 1, c :: cs =>
    match matchUniformDecl (c :: cs) with
    | some ((ty, nm), rest) => (ty, nm) :: scanUniformPairsF fuel rest
    | none => scanUniformPairsF fuel cs

def scanUniformPairs (l : List Char) : List (List Char × List Char) :=
  scanUniformPairsF l.length l

/-- `std::stoi` on a capture of `(\d+)`: the digits interpreted in base 10. -/
def digitsToNat (d : List Char) : Nat :=
  d.foldl (fun a c => a * 10 + (c.toNat - 48)) 0

/-- `std::stoi` on an all-digit string: throws `std::out_of_range` (message
"stoi") when the value exceeds `INT_MAX = 2147483647`. -/
def stoiDigits (d : List Char) : Except (List Char) Int :=
  if digitsToNat d ≤ 2147483647 then .ok (Int.ofNat (digitsToNat d))
  else .error (s2l "stoi")

/-- The `regex_search` loop of `ExtractAttributes`; an `std::out_of_range`
from `stoi` propagates immediately (`Except.error`). -/
def extractAttributesF : Nat → List Char → List VertexAttribute →
    Except (List Char) (List VertexAttribute)
  | 0, _, acc => .ok acc
  | _ + 1, [], acc => .ok acc
  | fuel + 1, c :: cs, acc =>
    match matchAttr (c :: cs) with
    | some ((d, ty, nm), rest) =>
      match stoiDigits d with
      | .ok v => extractAttributesF fuel rest (acc ++ [⟨nm, ty, v⟩])
      | .error e => .error e
    | none => extractAttributesF fuel cs acc

/-- `ShaderTranspiler::ExtractAttributes`. -/
def ExtractAttributes (l : List Char) :
    Except (List Char) (List VertexAttribute) :=
  extractAttributesF l.length l []

/-- The bare occurrence scan of the attribute pattern: the raw
`(digits, type, name)` captures in first-occurrence order. -/
def scanAttrRawF : Nat → List Char → List (List Char × List Char × List Char)
  | 0, _ => []
  | _ + 1, [] => []
  | fuel + 1, c :: cs =>
    match matchAttr (c :: cs) with
    | some (caps, rest) => caps :: scanAttrRawF fuel rest
    | none => scanAttrRawF fuel cs

def scanAttrRaw (l : List Char) : List (List Char × List Char × List Char) :=
  scanAttrRawF l.length l

/-- `regex_replace` with pattern `\btok\b` and literal replacement `rep`
(used for the builtin-token and `gl_*` rewrites).  `prevW` says whether the
character just before the current position is a word character (start of
input: no); the left `\b` holds when it is not, the right `\b` when the
character after the token is absent or not a word character.  Scanning resumes
after a match; the boundary state there is determined by the last character of
the matched token. -/
def replaceTokF (t : Char) (ts rep : List Char) :
    Nat → Bool → List Char → List Char
  | 0, _, l => l
  | _ + 1, _, [] => []
  | fuel + 1, prevW, c :: cs =>
    if prevW = false ∧ c = t then
      match matchLit ts cs with
      | some rest =>
        match rest with
        | [] => rep
        | d :: _ =>
          if wordChar d then
            c :: replaceTokF t ts rep fuel (wordChar c) cs
          else rep ++ replaceTokF t ts rep fuel (wordChar (ts.getLastD t)) rest
      | none => c :: replaceTokF t ts rep fuel (wordChar c) cs
    else c :: replaceTokF t ts rep fuel (wordChar c) cs

/-- `regex_replace(src, regex("\btok\b"), rep)` for a nonempty token. -/
def replaceTok (tok rep : List Char) (l : List Char) : List Char :=
  match tok with
  | [] => l
  | t :: ts => replaceTokF t ts rep l.length false l

/-- `regex_replace` with the varying pattern `\bkw\s+(\w+)\s+(\w+);` and a
replacement built from the two captures. -/
def replaceVaryingF (k : Char) (ks : List Char)
    (mk : List Char → List Char → List Char) :
    Nat → Bool → List Char → List Char
  | 0, _, l => l
  | _ + 1, _, [] => []
  | fuel + 1, prevW, c :: cs =>
    if prevW = false then
      match matchVarying (k :: ks) (c :: cs) with
      | some ((ty, nm), rest) =>
        mk ty nm ++ replaceVaryingF k ks mk fuel (wordChar ';') rest
      | none => c :: replaceVaryingF k ks mk fuel (wordChar c) cs
    else c :: replaceVaryingF k ks mk fuel (wordChar c) cs

def replaceVarying (kw : List Char) (mk : List Char → List Char → List Char)
    (l : List Char) : List Char :=
  match kw with
  | [] => l
  | k :: ks => replaceVaryingF k ks mk l.length false l

/-- `regex_replace` with the attribute pattern (no word boundaries) and a
replacement built from the three captures. -/
def replaceAttrF (mk : List Char → List Char → List Char → List Char) :
    Nat → List Char → List Char
  | 0, l => l
  | _ + 1, [] => []
  | fuel + 1, c :: cs =>
    match matchAttr (c :: cs) with
    | some ((d, ty, nm), rest) => mk d ty nm ++ replaceAttrF mk fuel rest
    | none => c :: replaceAttrF mk fuel cs

def replaceAttr (mk : List Char → List Char → List Char → List Char)
    (l : List Char) : List Char :=
  replaceAttrF mk l.length l

/-- `regex_replace(output, regex(R"((\w+)\s*\*\s*([\w\d\(\).]+))"),
"mul($1, $2)")`. -/
def replaceMulF : Nat → List Char → List Char
  | 0, l => l
  | _ + 1, [] => []
  | fuel + 1, c :: cs =>
    match matchMul (c :: cs) with
    | some ((a, b), rest) =>
      s2l "mul(" ++ a ++ s2l ", " ++ b ++ s2l ")" ++ replaceMulF fuel rest
    | none => c :: replaceMulF fuel cs

def replaceMul (l : List Char) : List Char := replaceMulF l.length l

/-! ## Conversion helpers (ShaderTranspiler.cpp) -/

/-- The GLSL→HLSL type mapping applied to uniform member types in
`ConvertUniformDeclarations`. -/
def mapHLSLType (t : List Char) : List Char :=
  if t = s2l "vec2" then s2l "float2"
  else if t = s2l "vec3" then s2l "float3"
  else if t = s2l "vec4" then s2l "float4"
  else if t = s2l "mat3" then s2l "float3x3"
  else if t = s2l "mat4" then s2l "float4x4"
  else t

/-- One emitted member line of the constant-buffer block:
`"    " << hlslType << " " << name << ";\n"`. -/
def memberLine (u : UniformBinding) : List Char :=
  s2l "    " ++ mapHLSLType u.type ++ s2l " " ++ u.name ++ s2l ";\n"

/-- The member lines emitted by the loop of `ConvertUniformDeclarations`,
in order. -/
def cbufferMembers : List UniformBinding → List Char
  | [] => []
  | u :: us => memberLine u ++ cbufferMembers us

/-- The opening of the constant-buffer block (the source never emits a
closing brace for it). -/
def cbufferHeader : List Char := s2l "cbuffer Uniforms : register(b0)\n\x7b\n"

/-- `ShaderTranspiler::ConvertUniformDeclarations`. -/
def ConvertUniformDeclarations (source : List Char) (target : ShaderTarget) :
    List Char :=
  if target ≠ ShaderTarget.HLSL then source
  else
    let uniforms := ExtractUniforms source
    if uniforms = [] then source
    else cbufferHeader ++ cbufferMembers uniforms ++ stripUniformKw source

/-- `ShaderTranspiler::ConvertAttributeDeclarations`. -/
def ConvertAttributeDeclarations (source : List Char) (target : ShaderTarget)
    (stage : ShaderStage) : List Char :=
  if stage ≠ ShaderStage.Vertex then source
  else
    match target with
    | ShaderTarget.HLSL =>
      replaceAttr
        (fun d ty nm => ty ++ s2l " " ++ nm ++ s2l " : TEXCOORD" ++ d ++ s2l ";")
        source
    | ShaderTarget.Metal =>
      replaceAttr
        (fun d ty nm =>
          ty ++ s2l " " ++ nm ++ s2l " [[attribute(" ++ d ++ s2l ")]];")
        source
    | _ => source

/-- `ShaderTranspiler::ConvertVaryingDeclarations`. -/
def ConvertVaryingDeclarations (source : List Char) (target : ShaderTarget)
    (stage : ShaderStage) : List Char :=
  match target, stage with
  | ShaderTarget.HLSL, ShaderStage.Vertex =>
    replaceVarying (s2l "out")
      (fun ty nm => ty ++ s2l " " ++ nm ++ s2l " : TEXCOORD0;") source
  | ShaderTarget.HLSL, ShaderStage.Fragment =>
    replaceVarying (s2l "in")
      (fun ty nm => ty ++ s2l " " ++ nm ++ s2l " : TEXCOORD0;") source
  | ShaderTarget.Metal, ShaderStage.Vertex =>
    replaceVarying (s2l "out")
      (fun ty nm => ty ++ s2l " " ++ nm ++ s2l " [[user(locn0)]];") source
  | _, _ => source

/-- `ShaderTranspiler::ConvertBuiltinFunctions`: a sequence of whole-word
token rewrites, each a fresh pass over the previous output (the first five
HLSL rewrites replace a name by itself, as in the source). -/
def ConvertBuiltinFunctions (source : List Char) (target : ShaderTarget) :
    List Char :=
  match target with
  | ShaderTarget.HLSL =>
    let o1 := replaceTok (s2l "normalize") (s2l "normalize") source
    let o2 := replaceTok (s2l "dot") (s2l "dot") o1
    let o3 := replaceTok (s2l "max") (s2l "max") o2
    let o4 := replaceTok (s2l "transpose") (s2l "transpose") o3
    let o5 := replaceTok (s2l "inverse") (s2l "inverse") o4
    let o6 := replaceTok (s2l "mat3") (s2l "float3x3") o5
    let o7 := replaceTok (s2l "mat4") (s2l "float4x4") o6
    let o8 := replaceTok (s2l "vec2") (s2l "float2") o7
    let o9 := replaceTok (s2l "vec3") (s2l "float3") o8
    replaceTok (s2l "vec4") (s2l "float4") o9
  | ShaderTarget.Metal =>
    let o1 := replaceTok (s2l "mat3") (s2l "float3x3") source
    let o2 := replaceTok (s2l "mat4") (s2l "float4x4") o1
    let o3 := replaceTok (s2l "vec2") (s2l "float2") o2
    let o4 := replaceTok (s2l "vec3") (s2l "float3") o3
    replaceTok (s2l "vec4") (s2l "float4") o4
  | _ => source

/-- `ShaderTranspiler::ConvertMatrixOperations`. -/
def ConvertMatrixOperations (source : List Char) (target : ShaderTarget) :
    List Char :=
  if target ≠ ShaderTarget.HLSL then source
  else replaceMul source

/-- `ShaderTranspiler::ReplaceGLSLBuiltins`. -/
def ReplaceGLSLBuiltins (source : List Char) (target : ShaderTarget)
    (stage : ShaderStage) : List Char :=
  match target, stage with
  | ShaderTarget.HLSL, ShaderStage.Vertex =>
    replaceTok (s2l "gl_Position") (s2l "position") source
  | ShaderTarget.HLSL, ShaderStage.Fragment =>
    replaceTok (s2l "gl_FragColor") (s2l "output") source
  | ShaderTarget.Metal, ShaderStage.Vertex =>
    replaceTok (s2l "gl_Position") (s2l "out.position") source
  | ShaderTarget.Metal, ShaderStage.Fragment =>
    replaceTok (s2l "gl_FragColor") (s2l "out.color") source
  | _, _ => source

/-- `ShaderTranspiler::GetTargetVersionString`. -/
def GetTargetVersionString : ShaderTarget → List Char
  | ShaderTarget.GLSL => s2l "#version 330 core"
  | ShaderTarget.HLSL => s2l "// HLSL Shader (Target: Direct3D 11)"
  | ShaderTarget.Vulkan => s2l "#version 450 core"
  | ShaderTarget.Metal => s2l "// Metal Shader Language"

/-- The text pipeline of `TranspileToHLSL` (lines 92–100): version strip,
then uniform, attribute, varying, builtin and matrix conversions, then the
`gl_*` rewrite. -/
def hlslConvert (glslSource : List Char) (stage : ShaderStage) : List Char :=
  let cleanedSource := stripVersion glslSource
  let c1 := ConvertUniformDeclarations cleanedSource ShaderTarget.HLSL
  let c2 := ConvertAttributeDeclarations c1 ShaderTarget.HLSL stage
  let c3 := ConvertVaryingDeclarations c2 ShaderTarget.HLSL stage
  let c4 := ConvertBuiltinFunctions c3 ShaderTarget.HLSL
  let c5 := ConvertMatrixOperations c4 ShaderTarget.HLSL
  ReplaceGLSLBuiltins c5 ShaderTarget.HLSL stage

/-- The placeholder matrix-inverse the source would prepend (raw string at
lines 106–111; indentation as in the file). -/
def placeholderInverse : List Char :=
  s2l "\n\t\t\t\tfloat4x4 inverse(float4x4 m) \x7b\n\t\t\t\t\t// In a real engine, you\x27d inject a full matrix inversion here\n\t\t\t\t\t// or pass the inverse matrix as a separate uniform.\n\t\t\t\t\treturn m; // Placeholder: this will stop the error but math will be wrong\n\t\t\t\t\x7d"

/-! ## External world model

`ToolEnv` supplies what the process environment and the external tools
determine: the `VULKAN_SDK` variable, the exit status of each `std::system`
command, and the contents of the files the code reads back (written by the
external tools).  `SysTrace` records, in order, the commands the code executes
and the files it writes; the logging collaborator is elided (no claim concerns
it). -/

structure ToolEnv where
  vulkanSDK : Option (List Char)
  exitCode : List Char → Int
  fileBytes : List Char → List Nat
  fileText : List Char → List Char

structure SysTrace where
  commands : List (List Char)
  filesWritten : List (List Char × List Char)
deriving DecidableEq

def recordCmd (tr : SysTrace) (cmd : List Char) : SysTrace :=
  { tr with commands := tr.commands ++ [cmd] }

def recordWrite (tr : SysTrace) (path content : List Char) : SysTrace :=
  { tr with filesWritten := tr.filesWritten ++ [(path, content)] }

/-- Group a byte sequence into little-endian 32-bit words, dropping a trailing
partial group: the source allocates `size / sizeof(uint32_t)` words and reads
the file into them. -/
def bytesToWords : List Nat → List Nat
  | b0 :: b1 :: b2 :: b3 :: rest =>
    (b0 + 256 * b1 + 65536 * b2 + 16777216 * b3) :: bytesToWords rest
  | _ => []

theorem bytesToWords_length (bs : List Nat) :
    (bytesToWords bs).length = bs.length / 4 := by
  match bs with
  | b0 :: b1 :: b2 :: b3 :: rest =>
    have ih := bytesToWords_length rest
    simp only [bytesToWords, List.length_cons, ih]
    omega
  | [] => simp [bytesToWords]
  | [_] => simp [bytesToWords]
  | [_, _] => simp [bytesToWords]
  | [_, _, _] => simp [bytesToWords]

/-! ## Per-target converters and facade -/

def validateHlslPath : List Char := s2l "Saved/ShaderCache/validate.hlsl"
def tempInputGlsl : List Char := s2l "Saved/ShaderCache/temp_input.glsl"
def tempInputSpv : List Char := s2l "Saved/ShaderCache/temp_input.spv"
def tempVulkanSpv : List Char := s2l "Saved/ShaderCache/temp_vulkan.spv"
def tempOutputMetal : List Char := s2l "Saved/ShaderCache/temp_output.metal"

/-- The dxc command line of `TranspileToHLSL`; the SDK root comes from
`VULKAN_SDK` with fallback `"C:/VulkanSDK/default"`. -/
def dxcCmd (env : ToolEnv) (stage : ShaderStage) : List Char :=
  let sdkPath := env.vulkanSDK.getD (s2l "C:/VulkanSDK/default")
  let targetProfile :=
    if stage = ShaderStage.Vertex then s2l "vs_6_0" else s2l "ps_6_0"
  s2l "\"" ++ sdkPath ++ s2l "\\Bin\\dxc.exe\" -T " ++ targetProfile
    ++ s2l " -E main " ++ validateHlslPath

/-- `ShaderTranspiler::TranspileToHLSL`.  The write of the validation file is
modelled unconditionally (the source skips it when the stream fails to open;
the result does not depend on it either way). -/
def TranspileToHLSL (glslSource : List Char) (stage : ShaderStage)
    (env : ToolEnv) (tr : SysTrace) : TranspilationResult × SysTrace :=
  let converted := hlslConvert glslSource stage
  let hlsl0 := GetTargetVersionString ShaderTarget.HLSL ++ ['\n']
  -- the source tests `hlsl` — at this point only the banner — for "inverse"
  let hlsl1 :=
    if hasSub (s2l "inverse") hlsl0 then placeholderInverse ++ hlsl0 else hlsl0
  let hlsl := hlsl1 ++ converted
  let tr1 := recordWrite tr validateHlslPath hlsl
  let cmd := dxcCmd env stage
  let tr2 := recordCmd tr1 cmd
  if env.exitCode cmd ≠ 0 then
    (⟨false, hlsl, [], s2l "DXC Validation Failed! Check shader syntax."⟩, tr2)
  else (⟨true, hlsl, [], []⟩, tr2)

/-- The glslang command line of `TranspileToVulkan`; the SDK root comes from
`VULKAN_SDK` with fallback `"C:/Program Files/VulkanSDK/1.4.313.1"`. -/
def glslangCmd (env : ToolEnv) : List Char :=
  let sdkPath :=
    env.vulkanSDK.getD (s2l "C:/Program Files/VulkanSDK/1.4.313.1")
  s2l "\"" ++ sdkPath ++ s2l "/Bin/glslang.exe\" -V " ++ tempInputGlsl
    ++ s2l " -o " ++ tempInputSpv

/-- `ShaderTranspiler::TranspileToVulkan`. -/
def TranspileToVulkan (glslSource : List Char) (_stage : ShaderStage)
    (env : ToolEnv) (tr : SysTrace) : TranspilationResult × SysTrace :=
  let output := s2l "#version 450 core\n\n" ++ glslSource
  let tr1 := recordWrite tr tempInputGlsl output
  let command := glslangCmd env
  let tr2 := recordCmd tr1 command
  if env.exitCode command = 0 then
    let buffer := bytesToWords (env.fileBytes tempInputSpv)
    (⟨true, output, buffer, s2l "SPIR-V compilation success!"⟩, tr2)
  else (⟨true, [], [], s2l "SPIR-V compilation failed!"⟩, tr2)

/-- The spirv-cross command line of `TranspileToMetal`.  The source reads
`VULKAN_SDK` with no null check (`std::string sdkPath = std::getenv(...)`),
which is undefined behaviour when the variable is unset; the model uses the
empty string there and the theorems hypothesise the variable is set. -/
def spirvCrossCmd (env : ToolEnv) : List Char :=
  let sdkPath := env.vulkanSDK.getD []
  s2l "\"" ++ sdkPath ++ s2l "/Bin/spirv-cross.exe\" -V " ++ tempVulkanSpv
    ++ s2l " -o " ++ tempOutputMetal

/-- `ShaderTranspiler::TranspileToMetal`. -/
def TranspileToMetal (glslSource : List Char) (stage : ShaderStage)
    (env : ToolEnv) (tr : SysTrace) : TranspilationResult × SysTrace :=
  let v := TranspileToVulkan glslSource stage env tr
  if v.1.success = false then v
  else
    let command := spirvCrossCmd env
    let tr2 := recordCmd v.2 command
    if env.exitCode command = 0 then
      (⟨true, env.fileText tempOutputMetal, [],
        s2l "Metal transpilation success!"⟩, tr2)
    else (⟨false, [], [], s2l "Metal transpilation failed!"⟩, tr2)

/-- `ShaderTranspiler::Transpile`: input validation, then dispatch by target.
None of the converters throws in the model, so the `try`/`catch` at lines
29–66 adds no behaviour; the log call is elided. -/
def Transpile (glslSource : List Char) (target : ShaderTarget)
    (stage : ShaderStage) (env : ToolEnv) (tr : SysTrace) :
    TranspilationResult × SysTrace :=
  if glslSource = [] then
    (⟨false, [], [], s2l "Input shader source is empty"⟩, tr)
  else if glslSource.contains '\x7b' = false
      ∨ glslSource.contains '\x7d' = false then
    (⟨false, [], [],
      s2l "ERROR: Missing curly braces in shader source. Please fix the problem."⟩,
     tr)
  else
    match target with
    | ShaderTarget.GLSL => (⟨true, glslSource, [], []⟩, tr)
    | ShaderTarget.HLSL => TranspileToHLSL glslSource stage env tr
    | ShaderTarget.Vulkan => TranspileToVulkan glslSource stage env tr
    | ShaderTarget.Metal => TranspileToMetal glslSource stage env tr

/-- `ShaderTranspiler::TranspileProgram`. -/
def TranspileProgram (vertexSource fragmentSource : List Char)
    (target : ShaderTarget) (env : ToolEnv) (tr : SysTrace) :
    TranspilationResult × SysTrace :=
  let v := Transpile vertexSource target ShaderStage.Vertex env tr
  if v.1.success = false then v
  else
    let f := Transpile fragmentSource target ShaderStage.Fragment env v.2
    if f.1.success = false then f
    else
      (⟨true,
        s2l "// === VERTEX SHADER ===\n" ++ v.1.output
          ++ s2l "\n\n// === FRAGMENT SHADER ===\n" ++ f.1.output,
        [], []⟩, f.2)

/-! ## Shared facts and concrete instances used by witnesses -/

/-- Both branches of `TranspileToVulkan` construct a result with
`success = true`; the assembler's failure is reported only through the empty
output and the message. -/
theorem vulkan_always_success (src : List Char) (stage : ShaderStage)
    (env : ToolEnv) (tr : SysTrace) :
    (TranspileToVulkan src stage env tr).1.success = true := by
  simp only [TranspileToVulkan]
  split <;> rfl

/-- A concrete environment whose commands all exit 0. -/
def envExit0 : ToolEnv :=
  ⟨some (s2l "SDK"), fun _ => 0, fun _ => [3, 1, 0, 0], fun _ => s2l "msl"⟩

/-- A concrete environment whose commands all exit 1. -/
def envExit1 : ToolEnv := ⟨some (s2l "SDK"), fun _ => 1, fun _ => [], fun _ => []⟩

/-- The empty system trace. -/
def trEmpty : SysTrace := ⟨[], []⟩

/-! ## Claims -/

/-- C1: for every input to the Vulkan converter, the result is determined by
the assembler's exit status: on zero exit it returns `success = true`, the
`"#version 450 core"`-prefixed pre-assembly text as output, and a binary whose
length in 32-bit words is the assembled file's size in bytes divided by 4; on
non-zero exit it returns `success = true` with empty output, empty binary and
the failure message. -/
theorem c1_vulkan_exit_status (src : List Char) (stage : ShaderStage)
    (env : ToolEnv) (tr : SysTrace) :
    (env.exitCode (glslangCmd env) = 0 →
      (TranspileToVulkan src stage env tr).1.success = true
      ∧ (TranspileToVulkan src stage env tr).1.output
          = s2l "#version 450 core\n\n" ++ src
      ∧ (TranspileToVulkan src stage env tr).1.binary.length
          = (env.fileBytes tempInputSpv).length / 4
      ∧ (TranspileToVulkan src stage env tr).1.errorMessage
          = s2l "SPIR-V compilation success!")
    ∧ (env.exitCode (glslangCmd env) ≠ 0 →
      (TranspileToVulkan src stage env tr).1.success = true
      ∧ (TranspileToVulkan src stage env tr).1.output = []
      ∧ (TranspileToVulkan src stage env tr).1.binary = []
      ∧ (TranspileToVulkan src stage env tr).1.errorMessage
          = s2l "SPIR-V compilation failed!") := by
  constructor
  · intro h
    simp [TranspileToVulkan, h, bytesToWords_length]
  · intro h
    simp [TranspileToVulkan, h]

theorem c1_vulkan_exit_status_witness :
    ((TranspileToVulkan (s2l "a") ShaderStage.Vertex envExit0 trEmpty).1.binary.length
      = (envExit0.fileBytes tempInputSpv).length / 4)
    ∧ (TranspileToVulkan (s2l "a") ShaderStage.Vertex envExit1 trEmpty).1.errorMessage
      = s2l "SPIR-V compilation failed!" :=
  ⟨((c1_vulkan_exit_status (s2l "a") ShaderStage.Vertex envExit0 trEmpty).1
      (by decide)).2.2.1,
   ((c1_vulkan_exit_status (s2l "a") ShaderStage.Vertex envExit1 trEmpty).2
      (by decide)).2.2.2⟩

/-- C2: for every target and stage, `Transpile` fails with an input error when
the source is empty, and when the source lacks a `{` or lacks a `}` anywhere
(a shallow presence test); on these paths the trace is unchanged: no file is
written and no toolchain command runs. -/
theorem c2_input_validation (src : List Char) (target : ShaderTarget)
    (stage : ShaderStage) (env : ToolEnv) (tr : SysTrace) :
    (src = [] →
      Transpile src target stage env tr
        = (⟨false, [], [], s2l "Input shader source is empty"⟩, tr))
    ∧ (src ≠ [] →
      src.contains '\x7b' = false ∨ src.contains '\x7d' = false →
      Transpile src target stage env tr
        = (⟨false, [], [],
            s2l "ERROR: Missing curly braces in shader source. Please fix the problem."⟩,
           tr)) := by
  constructor
  · intro h
    subst h
    rfl
  · intro h1 h2
    unfold Transpile
    rw [if_neg h1, if_pos h2]

theorem c2_input_validation_witness :
    (Transpile [] ShaderTarget.HLSL ShaderStage.Vertex envExit0 trEmpty
      = (⟨false, [], [], s2l "Input shader source is empty"⟩, trEmpty))
    ∧ (Transpile (s2l "no braces") ShaderTarget.Vulkan ShaderStage.Fragment
        envExit0 trEmpty
      = (⟨false, [], [],
          s2l "ERROR: Missing curly braces in shader source. Please fix the problem."⟩,
         trEmpty)) :=
  ⟨(c2_input_validation [] ShaderTarget.HLSL ShaderStage.Vertex envExit0
      trEmpty).1 rfl,
   (c2_input_validation (s2l "no braces") ShaderTarget.Vulkan
      ShaderStage.Fragment envExit0 trEmpty).2 (by decide) (by decide)⟩

/-- C3: `TranspileProgram` transpiles the vertex source first and the
fragment source second (the fragment call starts from the trace the vertex
call left); a vertex failure is returned unmodified without running the
fragment stage, a fragment failure after a vertex success is returned exactly,
and on dual success the result is the labelled concatenation with an empty
binary payload. -/
theorem c3_transpile_program (vs fs : List Char) (target : ShaderTarget)
    (env : ToolEnv) (tr : SysTrace) :
    ((Transpile vs target ShaderStage.Vertex env tr).1.success = false →
      TranspileProgram vs fs target env tr
        = Transpile vs target ShaderStage.Vertex env tr)
    ∧ ((Transpile vs target ShaderStage.Vertex env tr).1.success = true →
      (Transpile fs target ShaderStage.Fragment env
          (Transpile vs target ShaderStage.Vertex env tr).2).1.success = false →
      TranspileProgram vs fs target env tr
        = Transpile fs target ShaderStage.Fragment env
            (Transpile vs target ShaderStage.Vertex env tr).2)
    ∧ ((Transpile vs target ShaderStage.Vertex env tr).1.success = true →
      (Transpile fs target ShaderStage.Fragment env
          (Transpile vs target ShaderStage.Vertex env tr).2).1.success = true →
      TranspileProgram vs fs target env tr
        = (⟨true,
            s2l "// === VERTEX SHADER ===\n"
              ++ (Transpile vs target ShaderStage.Vertex env tr).1.output
              ++ s2l "\n\n// === FRAGMENT SHADER ===\n"
              ++ (Transpile fs target ShaderStage.Fragment env
                    (Transpile vs target ShaderStage.Vertex env tr).2).1.output,
            [], []⟩,
           (Transpile fs target ShaderStage.Fragment env
              (Transpile vs target ShaderStage.Vertex env tr).2).2)) := by
  refine ⟨?_, ?_, ?_⟩
  · intro hv
    simp [TranspileProgram, hv]
  · intro hv hf
    simp [TranspileProgram, hv, hf]
  · intro hv hf
    simp [TranspileProgram, hv, hf]

theorem c3_transpile_program_witness :
    (TranspileProgram (s2l "v()\x7b\x7d") (s2l "f()\x7b\x7d") ShaderTarget.GLSL
        envExit0 trEmpty
      = (⟨true,
          s2l "// === VERTEX SHADER ===\nv()\x7b\x7d\n\n// === FRAGMENT SHADER ===\nf()\x7b\x7d",
          [], []⟩, trEmpty))
    ∧ (TranspileProgram (s2l "v()\x7b\x7d") [] ShaderTarget.GLSL envExit0 trEmpty
      = (⟨false, [], [], s2l "Input shader source is empty"⟩, trEmpty)) :=
  ⟨by
    have h := (c3_transpile_program (s2l "v()\x7b\x7d") (s2l "f()\x7b\x7d")
      ShaderTarget.GLSL envExit0 trEmpty).2.2 (by decide) (by decide)
    rw [h]
    decide,
   by
    have h := (c3_transpile_program (s2l "v()\x7b\x7d") [] ShaderTarget.GLSL
      envExit0 trEmpty).2.1 (by decide) (by decide)
    rw [h]
    decide⟩

/-- C9: across every call to `Transpile`, the binary payload is non-empty
only when the target is Vulkan/SPIR-V and the result succeeded; every failure
result and every GLSL, HLSL and Metal result carries an empty binary. -/
theorem c9_binary_only_vulkan_success (src : List Char)
    (target : ShaderTarget) (stage : ShaderStage) (env : ToolEnv)
    (tr : SysTrace)
    (h : (Transpile src target stage env tr).1.binary ≠ []) :
    target = ShaderTarget.Vulkan
    ∧ (Transpile src target stage env tr).1.success = true := by
  by_cases h0 : src = []
  · simp [Transpile, h0] at h
  by_cases h1 : src.contains '\x7b' = false ∨ src.contains '\x7d' = false
  · exfalso
    apply h
    unfold Transpile
    rw [if_neg h0, if_pos h1]
  · have hred : ∀ t, Transpile src t stage env tr
        = match t with
          | ShaderTarget.GLSL => (⟨true, src, [], []⟩, tr)
          | ShaderTarget.HLSL => TranspileToHLSL src stage env tr
          | ShaderTarget.Vulkan => TranspileToVulkan src stage env tr
          | ShaderTarget.Metal => TranspileToMetal src stage env tr := by
      intro t
      unfold Transpile
      rw [if_neg h0, if_neg h1]
    cases target with
    | GLSL =>
      rw [hred] at h
      simp at h
    | HLSL =>
      exfalso
      apply h
      rw [hred]
      show (TranspileToHLSL src stage env tr).1.binary = []
      simp only [TranspileToHLSL]
      split <;> rfl
    | Vulkan =>
      refine ⟨rfl, ?_⟩
      rw [hred]
      exact vulkan_always_success src stage env tr
    | Metal =>
      exfalso
      apply h
      rw [hred]
      show (TranspileToMetal src stage env tr).1.binary = []
      simp only [TranspileToMetal, vulkan_always_success]
      rw [if_neg (by simp)]
      split <;> rfl

theorem c9_binary_only_vulkan_success_witness :
    ((Transpile (s2l "a\x7b\x7d") ShaderTarget.Vulkan ShaderStage.Vertex
        envExit0 trEmpty).1.binary ≠ [])
    ∧ (Transpile (s2l "a\x7b\x7d") ShaderTarget.Vulkan ShaderStage.Vertex
        envExit0 trEmpty).1.success = true :=
  ⟨by decide,
   (c9_binary_only_vulkan_success (s2l "a\x7b\x7d") ShaderTarget.Vulkan
      ShaderStage.Vertex envExit0 trEmpty (by decide)).2⟩

/-- A source whose HLSL-converted text contains the token `inverse`. -/
def invSrc : List Char := s2l "vec4 p = inverse(m); \x7b\x7d"

/-- C5 (code bug): the source tests the string `hlsl` for `"inverse"` at line
104, but at that point `hlsl` holds only the banner
`"// HLSL Shader (Target: Direct3D 11)\n"`, which never contains the token,
so the placeholder inverse function is never prepended — the output is always
exactly the banner followed by the converted text, even when the converted
text contains `inverse` (conjuncts 3 and 4 evaluate the failing input). -/
theorem c5_inverse_placeholder_never_injected (src : List Char)
    (stage : ShaderStage) (env : ToolEnv) (tr : SysTrace) :
    hasSub (s2l "inverse")
        (GetTargetVersionString ShaderTarget.HLSL ++ ['\n']) = false
    ∧ (TranspileToHLSL src stage env tr).1.output
        = GetTargetVersionString ShaderTarget.HLSL ++ ['\n']
          ++ hlslConvert src stage
    ∧ hasSub (s2l "inverse") (hlslConvert invSrc ShaderStage.Vertex) = true
    ∧ hasSub (s2l "float4x4 inverse(float4x4")
        ((TranspileToHLSL invSrc ShaderStage.Vertex env tr).1.output)
        = false := by
  have hbanner : hasSub (s2l "inverse")
      (GetTargetVersionString ShaderTarget.HLSL ++ ['\n']) = false := by decide
  have hout : ∀ (s : List Char) (st : ShaderStage),
      (TranspileToHLSL s st env tr).1.output
        = GetTargetVersionString ShaderTarget.HLSL ++ ['\n']
          ++ hlslConvert s st := by
    intro s st
    simp only [TranspileToHLSL, hbanner, Bool.false_eq_true, if_false,
      List.append_assoc]
    split <;> rfl
  refine ⟨hbanner, hout src stage, by decide, ?_⟩
  rw [hout invSrc ShaderStage.Vertex]
  decide

/-- C6: the Metal converter first delegates to the Vulkan converter on the
same source and stage (the glslang command is executed before the spirv-cross
command); were the Vulkan result a failure it would be returned unchanged
(in fact that result always has `success = true`, so the branch is dead); the
spirv-cross invocation names the fixed SPIR-V path `temp_vulkan.spv`, which
differs from the `temp_input.spv` named in the Vulkan step's command; on zero
exit it returns the generated Metal text with `success = true`, on non-zero
exit a failure with empty output. -/
theorem c6_metal_pipeline (src : List Char) (stage : ShaderStage)
    (env : ToolEnv) (tr : SysTrace) :
    (TranspileToMetal src stage env tr).2.commands
      = tr.commands ++ [glslangCmd env, spirvCrossCmd env]
    ∧ (TranspileToVulkan src stage env tr).1.success = true
    ∧ ((TranspileToVulkan src stage env tr).1.success = false →
        TranspileToMetal src stage env tr = TranspileToVulkan src stage env tr)
    ∧ tempVulkanSpv ≠ tempInputSpv
    ∧ spirvCrossCmd env
        = s2l "\"" ++ env.vulkanSDK.getD [] ++ s2l "/Bin/spirv-cross.exe\" -V "
          ++ tempVulkanSpv ++ s2l " -o " ++ tempOutputMetal
    ∧ (env.exitCode (spirvCrossCmd env) = 0 →
        (TranspileToMetal src stage env tr).1
          = ⟨true, env.fileText tempOutputMetal, [],
              s2l "Metal transpilation success!"⟩)
    ∧ (env.exitCode (spirvCrossCmd env) ≠ 0 →
        (TranspileToMetal src stage env tr).1
          = ⟨false, [], [], s2l "Metal transpilation failed!"⟩) := by
  have hv := vulkan_always_success src stage env tr
  have hmetal : TranspileToMetal src stage env tr
      = (if env.exitCode (spirvCrossCmd env) = 0 then
          (⟨true, env.fileText tempOutputMetal, [],
            s2l "Metal transpilation success!"⟩,
           recordCmd (TranspileToVulkan src stage env tr).2 (spirvCrossCmd env))
        else
          (⟨false, [], [], s2l "Metal transpilation failed!"⟩,
           recordCmd (TranspileToVulkan src stage env tr).2
             (spirvCrossCmd env))) := by
    simp only [TranspileToMetal, hv]
    rw [if_neg (by simp)]
  have hvtrace : (TranspileToVulkan src stage env tr).2.commands
      = tr.commands ++ [glslangCmd env] := by
    simp only [TranspileToVulkan]
    split <;> rfl
  refine ⟨?_, hv, ?_, by decide, rfl, ?_, ?_⟩
  · rw [hmetal]
    split <;> simp [recordCmd, hvtrace]
  · intro hfail
    rw [hv] at hfail
    exact absurd hfail (by simp)
  · intro hz
    rw [hmetal, if_pos hz]
  · intro hnz
    rw [hmetal, if_neg hnz]

theorem c6_metal_pipeline_witness :
    ((TranspileToMetal (s2l "a") ShaderStage.Vertex envExit0 trEmpty).1
      = ⟨true, envExit0.fileText tempOutputMetal, [],
          s2l "Metal transpilation success!"⟩)
    ∧ ((TranspileToMetal (s2l "a") ShaderStage.Vertex envExit1 trEmpty).1
      = ⟨false, [], [], s2l "Metal transpilation failed!"⟩) :=
  ⟨(c6_metal_pipeline (s2l "a") ShaderStage.Vertex envExit0
      trEmpty).2.2.2.2.2.1 (by decide),
   (c6_metal_pipeline (s2l "a") ShaderStage.Vertex envExit1
      trEmpty).2.2.2.2.2.2 (by decide)⟩

/-- Pair the occurrence captures with consecutive binding slots starting at
`k` (`set` always 0): the records `ExtractUniforms` builds. -/
def tagIdx : Nat → List (List Char × List Char) → List UniformBinding
  | _, [] => []
  | k, (ty, nm) :: ps => ⟨nm, ty, Int.ofNat k, 0⟩ :: tagIdx (k + 1) ps

theorem extractUniformsF_spec (fuel : Nat) :
    ∀ (l : List Char) (acc : List UniformBinding),
    extractUniformsF fuel l acc
      = acc ++ tagIdx acc.length (scanUniformPairsF fuel l) := by
  induction fuel with
  | zero =>
    intro l acc
    simp [extractUniformsF, scanUniformPairsF, tagIdx]
  | succ n ih =>
    intro l acc
    cases l with
    | nil => simp [extractUniformsF, scanUniformPairsF, tagIdx]
    | cons c cs =>
      simp only [extractUniformsF, scanUniformPairsF]
      cases hm : matchUniformDecl (c :: cs) with
      | none => exact ih cs acc
      | some res =>
        obtain ⟨⟨ty, nm⟩, rest⟩ := res
        dsimp only
        rw [ih]
        simp [tagIdx]

theorem tagIdx_pairs (ps : List (List Char × List Char)) :
    ∀ k, (tagIdx k ps).map (fun u => (u.type, u.name)) = ps := by
  induction ps with
  | nil => intro k; rfl
  | cons p ps ih =>
    intro k
    obtain ⟨ty, nm⟩ := p
    simp [tagIdx, ih]

theorem tagIdx_binding (ps : List (List Char × List Char)) :
    ∀ k, (tagIdx k ps).map (fun u => u.binding)
      = (List.range ps.length).map (fun i => Int.ofNat (k + i)) := by
  induction ps with
  | nil => intro k; rfl
  | cons p ps ih =>
    intro k
    obtain ⟨ty, nm⟩ := p
    simp only [tagIdx, List.map_cons, ih (k + 1), List.length_cons,
      List.range_succ_eq_map, List.map_map]
    congr 1
    apply List.map_congr_left
    intro i _
    simp [Function.comp]
    omega

theorem tagIdx_set (ps : List (List Char × List Char)) :
    ∀ k, ∀ u ∈ tagIdx k ps, u.set = 0 := by
  induction ps with
  | nil => intro k u hu; simp [tagIdx] at hu
  | cons p ps ih =>
    intro k u hu
    obtain ⟨ty, nm⟩ := p
    simp only [tagIdx, List.mem_cons] at hu
    cases hu with
    | inl h => rw [h]
    | inr h => exact ih (k + 1) u h

theorem tagIdx_length (ps : List (List Char × List Char)) :
    ∀ k, (tagIdx k ps).length = ps.length := by
  induction ps with
  | nil => intro k; rfl
  | cons p ps ih =>
    intro k
    obtain ⟨ty, nm⟩ := p
    simp [tagIdx, ih]

/-- C7: `ExtractUniforms` returns one record per non-overlapping occurrence
of `uniform <type> <name>;` in first-occurrence order (its `(type, name)`
projections are exactly the occurrence scan), binding slots equal the
zero-based discovery index, `set` is always 0, and the function is a pure
scan: equal inputs give equal, identically ordered outputs. -/
theorem c7_extract_uniforms (l : List Char) :
    (ExtractUniforms l).map (fun u => (u.type, u.name)) = scanUniformPairs l
    ∧ (ExtractUniforms l).map (fun u => u.binding)
        = (List.range (ExtractUniforms l).length).map Int.ofNat
    ∧ (∀ u ∈ ExtractUniforms l, u.set = 0)
    ∧ (∀ l2, l = l2 → ExtractUniforms l = ExtractUniforms l2) := by
  have hspec : ExtractUniforms l = tagIdx 0 (scanUniformPairs l) := by
    unfold ExtractUniforms scanUniformPairs
    rw [extractUniformsF_spec]
    rfl
  refine ⟨?_, ?_, ?_, ?_⟩
  · rw [hspec, tagIdx_pairs]
  · rw [hspec, tagIdx_binding, tagIdx_length]
    simp
  · rw [hspec]
    exact tagIdx_set (scanUniformPairs l) 0
  · intro l2 h
    rw [h]

theorem c7_extract_uniforms_witness :
    ExtractUniforms (s2l "uniform mat4 model;\nuniform vec3 p;")
      = ExtractUniforms (s2l "uniform mat4 model;\nuniform vec3 p;")
    ∧ (ExtractUniforms (s2l "uniform mat4 model;\nuniform vec3 p;")).map
        (fun u => u.binding) = [0, 1] :=
  ⟨(c7_extract_uniforms (s2l "uniform mat4 model;\nuniform vec3 p;")).2.2.2
      (s2l "uniform mat4 model;\nuniform vec3 p;") rfl,
   by
    have h :=
      (c7_extract_uniforms (s2l "uniform mat4 model;\nuniform vec3 p;")).2.1
    rw [h]
    decide⟩

/-- The attribute records built from the raw captures when every location
literal is in range. -/
def convAttr : List (List Char × List Char × List Char) → List VertexAttribute
  | [] => []
  | (d, ty, nm) :: ps => ⟨nm, ty, Int.ofNat (digitsToNat d)⟩ :: convAttr ps

theorem extractAttributesF_spec (fuel : Nat) :
    ∀ (l : List Char) (acc : List VertexAttribute),
    (∀ cap ∈ scanAttrRawF fuel l, digitsToNat cap.1 ≤ 2147483647) →
    extractAttributesF fuel l acc
      = .ok (acc ++ convAttr (scanAttrRawF fuel l)) := by
  induction fuel with
  | zero =>
    intro l acc hfit
    simp [extractAttributesF, scanAttrRawF, convAttr]
  | succ n ih =>
    intro l acc hfit
    cases l with
    | nil => simp [extractAttributesF, scanAttrRawF, convAttr]
    | cons c cs =>
      simp only [extractAttributesF, scanAttrRawF] at hfit ⊢
      cases hm : matchAttr (c :: cs) with
      | none =>
        rw [hm] at hfit
        exact ih cs acc hfit
      | some res =>
        obtain ⟨⟨d, ty, nm⟩, rest⟩ := res
        rw [hm] at hfit
        dsimp only
        have hd : digitsToNat d ≤ 2147483647 := hfit (d, ty, nm) (by simp)
        have hrest : ∀ cap ∈ scanAttrRawF n rest,
            digitsToNat cap.1 ≤ 2147483647 := by
          intro cap hcap
          exact hfit cap (by simp [hcap])
        rw [show stoiDigits d = .ok (Int.ofNat (digitsToNat d)) from by
          unfold stoiDigits; rw [if_pos hd]]
        dsimp only
        rw [ih _ _ hrest]
        simp [convAttr]

theorem convAttr_location (ps : List (List Char × List Char × List Char)) :
    (convAttr ps).map (fun a => a.location)
      = ps.map (fun cap => Int.ofNat (digitsToNat cap.1)) := by
  induction ps with
  | nil => rfl
  | cons p ps ih =>
    obtain ⟨d, ty, nm⟩ := p
    simp [convAttr, ih]

/-- C10: `ExtractAttributes` is not total over well-formed attribute shapes:
on a location literal exceeding `INT_MAX` the `std::stoi` conversion faults
(modelled by `Except.error "stoi"`, shown at a concrete input), whereas on
every input whose captured location literals all fit in `int` it returns
normally, with one record per occurrence whose location is the parsed
literal. -/
theorem c10_extract_attributes_partiality :
    ExtractAttributes (s2l "layout(location = 2147483648) in vec3 normal;")
      = .error (s2l "stoi")
    ∧ ∀ (l : List Char),
      (∀ cap ∈ scanAttrRaw l, digitsToNat cap.1 ≤ 2147483647) →
      ExtractAttributes l = .ok (convAttr (scanAttrRaw l))
      ∧ (convAttr (scanAttrRaw l)).map (fun a => a.location)
          = (scanAttrRaw l).map (fun cap => Int.ofNat (digitsToNat cap.1)) := by
  refine ⟨rfl, ?_⟩
  intro l hfit
  refine ⟨?_, convAttr_location (scanAttrRaw l)⟩
  unfold ExtractAttributes scanAttrRaw
  rw [extractAttributesF_spec l.length l [] hfit]
  rfl

theorem c10_extract_attributes_partiality_witness :
    ExtractAttributes (s2l "layout(location = 2) in vec3 normal;")
      = .ok [⟨s2l "normal", s2l "vec3", 2⟩] := by
  have h := (c10_extract_attributes_partiality.2
    (s2l "layout(location = 2) in vec3 normal;") (by decide)).1
  rw [h]
  rfl

/-! ## C4: uniform declaration conversion -/

theorem cbufferMembers_decomp {u : UniformBinding} :
    ∀ us : List UniformBinding, u ∈ us →
    ∃ pre post, cbufferMembers us = pre ++ memberLine u ++ post := by
  intro us
  induction us with
  | nil => intro h; simp at h
  | cons v vs ih =>
    intro h
    cases List.mem_cons.mp h with
    | inl he =>
      subst he
      exact ⟨[], cbufferMembers vs, by simp [cbufferMembers]⟩
    | inr ht =>
      obtain ⟨pre, post, hpp⟩ := ih ht
      exact ⟨memberLine v ++ pre, post, by simp [cbufferMembers, hpp]⟩

/-- C4 counterexample: the source `"uniform mat4 model;\nuniform;"` contains a
uniform declaration of the required shape, yet the HLSL conversion's output
still contains the keyword `uniform` (in the line `uniform;`, which the
keyword-stripping pass does not touch because no whitespace follows), so the
claim that no `uniform` keyword-bearing line remains is false. -/
theorem c4_counterexample :
    (ExtractUniforms (s2l "uniform mat4 model;\nuniform;") ≠ [])
    ∧ hasSub (s2l "uniform")
        (ConvertUniformDeclarations (s2l "uniform mat4 model;\nuniform;")
          ShaderTarget.HLSL) = true := by
  exact ⟨by decide, by decide⟩

/-- C4 (amended): when at least one uniform declaration occurs, the HLSL
conversion emits the `cbuffer Uniforms : register(b0)` block with one member
per extracted uniform, each with its type mapped (vec2→float2, vec3→float3,
vec4→float4, mat3→float3x3, mat4→float4x4, others unchanged), followed by the
body in which each match of `uniform` followed by whitespace is deleted (only
the keyword and the whitespace — the rest of the declaration line remains, and
occurrences of `uniform` not followed by whitespace survive). -/
theorem c4_uniform_conversion_amended (src : List Char)
    (h : ExtractUniforms src ≠ []) :
    ConvertUniformDeclarations src ShaderTarget.HLSL
      = cbufferHeader ++ cbufferMembers (ExtractUniforms src)
        ++ stripUniformKw src
    ∧ (∀ u ∈ ExtractUniforms src, ∃ pre post,
        ConvertUniformDeclarations src ShaderTarget.HLSL
          = pre ++ memberLine u ++ post)
    ∧ mapHLSLType (s2l "vec2") = s2l "float2"
    ∧ mapHLSLType (s2l "vec3") = s2l "float3"
    ∧ mapHLSLType (s2l "vec4") = s2l "float4"
    ∧ mapHLSLType (s2l "mat3") = s2l "float3x3"
    ∧ mapHLSLType (s2l "mat4") = s2l "float4x4"
    ∧ mapHLSLType (s2l "float") = s2l "float" := by
  have h1 : ConvertUniformDeclarations src ShaderTarget.HLSL
      = cbufferHeader ++ cbufferMembers (ExtractUniforms src)
        ++ stripUniformKw src := by
    unfold ConvertUniformDeclarations
    rw [if_neg (by simp), if_neg h]
  refine ⟨h1, ?_, rfl, rfl, rfl, rfl, rfl, rfl⟩
  intro u hu
  obtain ⟨pre, post, hpp⟩ := cbufferMembers_decomp (ExtractUniforms src) hu
  refine ⟨cbufferHeader ++ pre, post ++ stripUniformKw src, ?_⟩
  rw [h1, hpp]
  simp [List.append_assoc]

theorem c4_uniform_conversion_amended_witness :
    (ExtractUniforms (s2l "uniform mat4 model;") ≠ [])
    ∧ ConvertUniformDeclarations (s2l "uniform mat4 model;") ShaderTarget.HLSL
      = s2l "cbuffer Uniforms : register(b0)\n\x7b\n    float4x4 model;\nmat4 model;" :=
  ⟨by decide,
   by
    rw [(c4_uniform_conversion_amended (s2l "uniform mat4 model;")
      (by decide)).1]
    rfl⟩

/-! ## C8: `#version` directive stripping -/

theorem stripVersionF_nil : ∀ fuel, stripVersionF fuel [] = []
  | 0 => rfl
  | _ + 1 => rfl

theorem stripVersionF_congr (n : Nat) :
    ∀ (l : List Char) (f1 f2 : Nat), l.length ≤ n → l.length ≤ f1 →
    l.length ≤ f2 → stripVersionF f1 l = stripVersionF f2 l := by
  induction n with
  | zero =>
    intro l f1 f2 h0 h1 h2
    have hl : l = [] := by
      cases l with
      | nil => rfl
      | cons c cs => simp at h0
    subst hl
    rw [stripVersionF_nil, stripVersionF_nil]
  | succ n ih =>
    intro l f1 f2 h0 h1 h2
    cases l with
    | nil => rw [stripVersionF_nil, stripVersionF_nil]
    | cons c cs =>
      obtain ⟨f1p, rfl⟩ : ∃ k, f1 = k + 1 := by
        cases f1 with
        | zero => simp at h1
        | succ k => exact ⟨k, rfl⟩
      obtain ⟨f2p, rfl⟩ : ∃ k, f2 = k + 1 := by
        cases f2 with
        | zero => simp at h2
        | succ k => exact ⟨k, rfl⟩
      simp only [stripVersionF]
      cases hm : matchVersion (c :: cs) with
      | some rest =>
        have hrl := matchVersion_length hm
        apply ih rest f1p f2p
        · simp at h0 hrl ⊢
          omega
        · simp at h1 hrl ⊢
          omega
        · simp at h2 hrl ⊢
          omega
      | none =>
        have := ih cs f1p f2p (by simp at h0 ⊢; omega) (by simp at h1 ⊢; omega)
          (by simp at h2 ⊢; omega)
        rw [this]

/-- The `#version` matcher at a strippable directive followed by text whose
first character is not whitespace consumes exactly the directive line. -/
theorem matchVersion_eval (rest : List Char) (h : rest.takeWhile wsChar = []) :
    matchVersion (s2l "#version 450\n" ++ rest) = some rest := by
  have hl : s2l "#version 450\n" ++ rest
      = '#' :: 'v' :: 'e' :: 'r' :: 's' :: 'i' :: 'o' :: 'n' :: ' ' :: '4'
        :: '5' :: '0' :: '\n' :: rest := rfl
  have h1 : matchLit (s2l "#version")
      ('#' :: 'v' :: 'e' :: 'r' :: 's' :: 'i' :: 'o' :: 'n' :: ' ' :: '4'
        :: '5' :: '0' :: '\n' :: rest)
      = some (' ' :: '4' :: '5' :: '0' :: '\n' :: rest) := rfl
  have h2 : span1 wsChar (' ' :: '4' :: '5' :: '0' :: '\n' :: rest)
      = some ([' '], '4' :: '5' :: '0' :: '\n' :: rest) := rfl
  have h3 : span1 digitChar ('4' :: '5' :: '0' :: '\n' :: rest)
      = some (['4', '5', '0'], '\n' :: rest) := rfl
  have h4 : ('\n' :: rest).takeWhile wsChar = ['\n'] := by
    rw [List.takeWhile_cons_of_pos (by rfl), h]
  have h5 : ('\n' :: rest).dropWhile wsChar = rest := by
    rw [List.dropWhile_cons_of_pos (by rfl)]
    exact takeWhile_nil_dropWhile h
  rw [hl]
  unfold matchVersion
  rw [h1]
  dsimp only
  rw [h2]
  dsimp only
  rw [h3]
  dsimp only
  rw [h4, h5]
  rfl

/-- C8 counterexample: on the source `"#version 330 core\nvoid main(){}"`
(the form shown in the claim) the HLSL conversion's final output still
contains `#version`: the stripping regex `#version\s+\d+\s*\n` requires the
newline to follow the number across whitespace only, so a directive with a
trailing token such as `core` is not matched. -/
theorem c8_counterexample :
    hasSub (s2l "#version")
      ((TranspileToHLSL (s2l "#version 330 core\nvoid main()\x7b\x7d")
          ShaderStage.Vertex envExit0 trEmpty).1.output) = true := by
  decide

/-- C8 (amended): the HLSL conversion's first step removes a `#version`
directive only when its number is followed, across whitespace, directly by a
newline (for instance `#version 450\n` is removed wherever text follows whose
first character is not whitespace); a directive carrying a further token after
the number, such as `#version 330 core`, is not removed. -/
theorem c8_version_strip_amended (rest : List Char)
    (h : rest.takeWhile wsChar = []) :
    stripVersion (s2l "#version 450\n" ++ rest) = stripVersion rest
    ∧ stripVersion (s2l "#version 330 core\nvoid main()\x7b\x7d")
      = s2l "#version 330 core\nvoid main()\x7b\x7d" := by
  refine ⟨?_, by rfl⟩
  have hm := matchVersion_eval rest h
  unfold stripVersion
  have hlen : (s2l "#version 450\n" ++ rest).length = rest.length + 12 + 1 := by
    simp [s2l]
  rw [hlen]
  rw [show s2l "#version 450\n" ++ rest
    = '#' :: ('v' :: 'e' :: 'r' :: 's' :: 'i' :: 'o' :: 'n' :: ' ' :: '4'
      :: '5' :: '0' :: '\n' :: rest) from rfl]
  simp only [stripVersionF]
  rw [show matchVersion ('#' :: ('v' :: 'e' :: 'r' :: 's' :: 'i' :: 'o' :: 'n'
    :: ' ' :: '4' :: '5' :: '0' :: '\n' :: rest)) = some rest from hm]
  exact stripVersionF_congr rest.length rest _ _ le_rfl (by omega) le_rfl

theorem c8_version_strip_amended_witness :
    ((s2l "void main()\x7b\x7d").takeWhile wsChar = [])
    ∧ stripVersion (s2l "#version 450\n" ++ s2l "void main()\x7b\x7d")
      = stripVersion (s2l "void main()\x7b\x7d") :=
  ⟨by decide,
   (c8_version_strip_amended (s2l "void main()\x7b\x7d") (by decide)).1⟩

end Orca
